import Mathlib

/-!
Shallow embedding of `src/json_to_excel.py` (functions `process_json_data` and
the root-shape dispatch in it), together with theorems checking the
natural-language specification against the code.

JSON values parsed by Python's `json.load` are modelled by `JValue`:
`null`/`None`, booleans, numbers (as rationals), strings, arrays (Python
lists) and objects (Python dicts, represented as association lists in
insertion order; `json.load` always yields dicts with pairwise distinct
keys, later duplicates in the source text overwriting earlier ones).
Python exceptions raised by the untyped code (`TypeError`,
`AttributeError`, `KeyError`) are modelled by `Except PyError`.
-/

inductive JValue where
  | null : JValue
  | bool (b : Bool) : JValue
  | num (q : ℚ) : JValue
  | str (s : String) : JValue
  | arr (elems : List JValue) : JValue
  | obj (fields : List (String × JValue)) : JValue

inductive PyError where
  | typeError : PyError
  | attributeError : PyError
  | keyError : PyError
deriving DecidableEq

/-- Insert a key/value pair into a key-sorted association list. -/
def insertPair (p : String × JValue) : List (String × JValue) → List (String × JValue)
  | [] => [p]
  | q :: qs => if p.1 ≤ q.1 then p :: q :: qs else q :: insertPair p qs

/-- Sort an association list by key (insertion sort). -/
def sortPairs : List (String × JValue) → List (String × JValue)
  | [] => []
  | p :: ps => insertPair p (sortPairs ps)

mutual
/-- Canonical form used to decide Python `==` on JSON-derived values:
booleans are identified with the numbers 0/1 (Python has `True == 1`),
and object fields are sorted by key (Python dict equality ignores
insertion order; parsed dicts have distinct keys). Two values are
Python-equal iff their canonical forms are identical. -/
def canon : JValue → JValue
  | .null => .null
  | .bool b => .num (if b then 1 else 0)
  | .num q => .num q
  | .str s => .str s
  | .arr xs => .arr (canonList xs)
  | .obj fs => .obj (sortPairs (canonPairs fs))

def canonList : List JValue → List JValue
  | [] => []
  | x :: xs => canon x :: canonList xs

def canonPairs : List (String × JValue) → List (String × JValue)
  | [] => []
  | p :: ps => (p.1, canon p.2) :: canonPairs ps
end

mutual
/-- Structural equality of `JValue` as a boolean. -/
def beqJ : JValue → JValue → Bool
  | .null, .null => true
  | .bool a, .bool b => a == b
  | .num p, .num q => p == q
  | .str s, .str t => s == t
  | .arr xs, .arr ys => beqListJ xs ys
  | .obj fs, .obj gs => beqPairsJ fs gs
  | _, _ => false

def beqListJ : List JValue → List JValue → Bool
  | [], [] => true
  | x :: xs, y :: ys => beqJ x y && beqListJ xs ys
  | _, _ => false

def beqPairsJ : List (String × JValue) → List (String × JValue) → Bool
  | [], [] => true
  | p :: ps, q :: qs => (p.1 == q.1) && beqJ p.2 q.2 && beqPairsJ ps qs
  | _, _ => false
end

/-- Python `==` on JSON-derived values: equality of canonical forms. -/
def pyEq (a b : JValue) : Bool := beqJ (canon a) (canon b)

/-- Python truthiness of a JSON-derived value (`if x:`): `None`, `False`,
zero, the empty string, the empty list and the empty dict are falsy. -/
def truthy : JValue → Bool
  | .null => false
  | .bool b => b
  | .num q => q != 0
  | .str s => s != ""
  | .arr [] => false
  | .arr (_ :: _) => true
  | .obj [] => false
  | .obj (_ :: _) => true

/-- Python hashability: lists and dicts are unhashable (adding them to a
set, or testing membership, raises `TypeError`). -/
def hashable : JValue → Bool
  | .arr _ => false
  | .obj _ => false
  | _ => true

/-- Dict lookup with default (`d.get(k, default)`); parsed dicts have
distinct keys, so taking the first binding is Python dict lookup. -/
def getD (fs : List (String × JValue)) (k : String) (d : JValue) : JValue :=
  match fs.find? (fun p => p.1 == k) with
  | some p => p.2
  | none => d

/-- `k in d` for a dict. -/
def hasKey (fs : List (String × JValue)) (k : String) : Bool :=
  (fs.find? (fun p => p.1 == k)).isSome

/-- Python `.get(key, default)`: attribute lookup of `get` fails with
`AttributeError` on every non-dict value. -/
def pyGet (v : JValue) (k : String) (d : JValue) : Except PyError JValue :=
  match v with
  | .obj fs => .ok (getD fs k d)
  | _ => .error .attributeError

/-- Python iteration (`for x in v`): lists yield their elements, strings
their characters (as one-character strings), dicts their keys; every
other value raises `TypeError`. -/
def pyIter : JValue → Except PyError (List JValue)
  | .arr xs => .ok xs
  | .str s => .ok (s.toList.map (fun c => .str (String.mk [c])))
  | .obj fs => .ok (fs.map (fun p => .str p.1))
  | _ => .error .typeError

mutual
/-- Python `str()` of a JSON-derived value, as used by the f-string
building the default tag and by the `startswith("CONF-")` test.
Strings render as themselves; `None` and booleans render as Python
prints them. Numbers render via the decimal/rational notation of `ℚ`,
abstracting Python's numeric repr, which likewise starts with a digit
or a minus sign. Containers render bracketed with `repr`-style
elements (string quoting of exotic characters is not reproduced);
Python's renderings likewise start with the opening bracket. -/
def pyStr : JValue → String
  | .null => "None"
  | .bool b => if b then "True" else "False"
  | .num q => toString q
  | .str s => s
  | .arr xs => "[" ++ String.intercalate ", " (pyReprList xs) ++ "]"
  | .obj fs => "\x7b" ++ String.intercalate ", " (pyReprPairs fs) ++ "\x7d"

def pyRepr : JValue → String
  | .null => "None"
  | .bool b => if b then "True" else "False"
  | .num q => toString q
  | .str s => "\'" ++ s ++ "\'"
  | .arr xs => "[" ++ String.intercalate ", " (pyReprList xs) ++ "]"
  | .obj fs => "\x7b" ++ String.intercalate ", " (pyReprPairs fs) ++ "\x7d"

def pyReprList : List JValue → List String
  | [] => []
  | x :: xs => pyRepr x :: pyReprList xs

def pyReprPairs : List (String × JValue) → List String
  | [] => []
  | p :: ps => ("\'" ++ p.1 ++ "\': " ++ pyRepr p.2) :: pyReprPairs ps
end

/-- `pre` is a prefix of the character list. -/
def startsWithL : List Char → List Char → Bool
  | [], _ => true
  | _ :: _, [] => false
  | c :: cs, d :: ds => c == d && startsWithL cs ds

/-- Python `s.startswith(pre)`. -/
def pyStartsWith (s pre : String) : Bool := startsWithL pre.toList s.toList

/-- `needle` occurs somewhere in the character list. -/
def occursL (needle : List Char) : List Char → Bool
  | [] => needle == []
  | d :: ds => startsWithL needle (d :: ds) || occursL needle ds

/-- `needle` occurs as a substring of `hay` (Python `needle in hay` on
strings); the empty needle always occurs. -/
def substr (needle hay : String) : Bool :=
  occursL needle.toList hay.toList

/-- Python `needle in container`: key membership for dicts (needle must
be hashable), element `==` for lists, substring test for strings (needle
must be a string); `TypeError` on every other container. -/
def pyIn (needle container : JValue) : Except PyError Bool :=
  match container with
  | .obj fs =>
      if hashable needle then .ok (fs.any (fun p => pyEq (.str p.1) needle))
      else .error .typeError
  | .arr xs => .ok (xs.any (fun x => pyEq x needle))
  | .str s =>
      match needle with
      | .str t => .ok (substr t s)
      | _ => .error .typeError
  | _ => .error .typeError

/-- Python subscription `v[k]` with a string key: dict lookup
(`KeyError` when absent), `TypeError` on every other value. -/
def pyIndexStr (v : JValue) (k : String) : Except PyError JValue :=
  match v with
  | .obj fs =>
      match fs.find? (fun p => p.1 == k) with
      | some p => .ok p.2
      | none => .error .keyError
  | _ => .error .typeError

/-- One output row: the seven-field dict appended to `rows` by
`process_json_data`. Python `None` is `JValue.null`. -/
structure Row where
  textType : JValue
  paragraphID : JValue
  publicationID : JValue
  taskText : JValue
  tag : JValue
  similarityScore : JValue
  reasonings : JValue

/-- Check that every iterated element is a string, as `str.join` demands. -/
def allStrs : List JValue → Except PyError (List String)
  | [] => .ok []
  | .str s :: xs =>
      match allStrs xs with
      | .ok ss => .ok (s :: ss)
      | .error e => .error e
  | _ :: _ => .error .typeError

/-- Python `sep.join(v)`: iterate `v`, require string elements, and
intercalate. -/
def pyJoin (sep : String) (v : JValue) : Except PyError String :=
  match pyIter v with
  | .error e => .error e
  | .ok elems =>
      match allStrs elems with
      | .ok ss => .ok (String.intercalate sep ss)
      | .error e => .error e

/-- Membership of a value in the used-publication-ID set, by Python `==`
(the set holds only hashable values, so hash-based lookup degenerates to
equality search). -/
def pyMem (x : JValue) (used : List JValue) : Bool :=
  used.any (fun u => pyEq u x)

/-- First matching reasoning (lines 92-96 of `json_to_excel.py`): scan
the reasoning entries in order; on the first whose `publication_ID` is
Python-`==` to `pid`, return its `reasoning` (default `None`). Each
entry must support `.get`, i.e. be a dict. Returns `null` when no entry
matches. -/
def findReasoning (pid : JValue) : List JValue → Except PyError JValue
  | [] => .ok .null
  | r :: rs =>
      match pyGet r "publication_ID" .null with
      | .error e => .error e
      | .ok rp =>
          if pyEq rp pid then pyGet r "reasoning" .null
          else findReasoning pid rs

/-- Lines 90-97 of `json_to_excel.py`: resolve the reasoning text for a
low-order entry and update the used set. Only a truthy `pid` is
considered; an unhashable truthy `pid` raises `TypeError` at the set
membership test; a `pid` already used yields `None` without touching the
set; otherwise the item's `reasonings` value is iterated, the first
match taken, and `pid` is added to the set whether or not a match was
found. -/
def lotReasoning (reasoningsV : JValue) (used : List JValue) (pid : JValue) :
    Except PyError (JValue × List JValue) :=
  if truthy pid then
    if hashable pid then
      if pyMem pid used then .ok (.null, used)
      else
        match pyIter reasoningsV with
        | .error e => .error e
        | .ok rs =>
            match findReasoning pid rs with
            | .error e => .error e
            | .ok rt => .ok (rt, pid :: used)
    else .error .typeError
  else .ok (.null, used)

/-- Lines 82-122 of `json_to_excel.py`: process one low-order entry,
producing its row and the updated used set. `hotParId` is the parent
high-order entry's `paragraph_ID` (with default `""`), used by the
f-string default tag `"INCON-..."`. A tag that is truthy and whose
`str()` starts with `"CONF-"` yields the suppressed row. -/
def processLot (reasoningsV hotParId : JValue) (used : List JValue) (lot : JValue) :
    Except PyError (Row × List JValue) :=
  match lot with
  | .obj fs =>
      let pubId := getD fs "publication_ID" (.str "")
      let parId := getD fs "paragraph_ID" (.str "")
      let tag := getD fs "tag" (.str ("INCON-" ++ pyStr hotParId))
      let sim := getD fs "similarity_score" (.str "")
      let text := getD fs "text" (.str "")
      match lotReasoning reasoningsV used pubId with
      | .error e => .error e
      | .ok (rtext, used') =>
          if truthy tag && pyStartsWith (pyStr tag) "CONF-" then
            .ok (⟨.null, .null, .null, .null, tag, .null, rtext⟩, used')
          else
            .ok (⟨.str "Low-Order Text", parId, pubId, text, tag, sim, rtext⟩, used')
  | _ => .error .attributeError

/-- Fold `processLot` over the low-order entries in order. -/
def processLots (reasoningsV hotParId : JValue) (used : List JValue) :
    List JValue → Except PyError (List Row × List JValue)
  | [] => .ok ([], used)
  | l :: ls =>
      match processLot reasoningsV hotParId used l with
      | .error e => .error e
      | .ok (row, u1) =>
          match processLots reasoningsV hotParId u1 ls with
          | .error e => .error e
          | .ok (rows, u2) => .ok (row :: rows, u2)

/-- Lines 68-122 of `json_to_excel.py`: process one high-order entry:
emit its row (Text Type `"High-Order Text"`, similarity `"N/A"`, tags
joined with `", "`, empty reasonings), then its low-order entries in
order. -/
def processHot (reasoningsV : JValue) (used : List JValue) (hot : JValue) :
    Except PyError (List Row × List JValue) :=
  match hot with
  | .obj fs =>
      let parId := getD fs "paragraph_ID" (.str "")
      match pyJoin ", " (getD fs "tags" (.arr [])) with
      | .error e => .error e
      | .ok tagsStr =>
          match pyIter (getD fs "low_order_texts" (.arr [])) with
          | .error e => .error e
          | .ok lots =>
              match processLots reasoningsV parId used lots with
              | .error e => .error e
              | .ok (lrows, used') =>
                  .ok (⟨.str "High-Order Text", parId, getD fs "publication_ID" (.str ""),
                        getD fs "text" (.str ""), .str tagsStr, .str "N/A", .str ""⟩ :: lrows,
                       used')
  | _ => .error .attributeError

/-- Fold `processHot` over the high-order entries in order. -/
def processHots (reasoningsV : JValue) (used : List JValue) :
    List JValue → Except PyError (List Row × List JValue)
  | [] => .ok ([], used)
  | h :: hs =>
      match processHot reasoningsV used h with
      | .error e => .error e
      | .ok (rows1, u1) =>
          match processHots reasoningsV u1 hs with
          | .error e => .error e
          | .ok (rows2, u2) => .ok (rows1 ++ rows2, u2)

/-- Lines 62-122 of `json_to_excel.py`: process one item:
`item.get('high_order_text', [])` and `item.get('reasonings', [])`,
then iterate the high-order entries. -/
def processItem (used : List JValue) (item : JValue) :
    Except PyError (List Row × List JValue) :=
  match item with
  | .obj fs =>
      match pyIter (getD fs "high_order_text" (.arr [])) with
      | .error e => .error e
      | .ok hots => processHots (getD fs "reasonings" (.arr [])) used hots
  | _ => .error .attributeError

/-- Fold `processItem` over the items in order; the used set is threaded
through all items (it is created once, before the item loop). -/
def processItemsList (used : List JValue) :
    List JValue → Except PyError (List Row × List JValue)
  | [] => .ok ([], used)
  | i :: is =>
      match processItem used i with
      | .error e => .error e
      | .ok (rows1, u1) =>
          match processItemsList u1 is with
          | .error e => .error e
          | .ok (rows2, u2) => .ok (rows1 ++ rows2, u2)

/-- Iterate the resolved items value (`for item in items`) and process
every item. -/
def processItems (used : List JValue) (itemsV : JValue) :
    Except PyError (List Row × List JValue) :=
  match pyIter itemsV with
  | .error e => .error e
  | .ok items => processItemsList used items

/-- Lines 50-60 of `json_to_excel.py`: root-shape dispatch. Returns
`ok (some v)` with the value bound to `items`, `ok none` for the
unsupported-shape branch (message printed, `exit(1)`), and `error` when
the dispatch itself raises: `'results' in json_data['payload']` can
raise `TypeError` when the payload value is not a container, and
`json_data['payload']['results']` can raise `TypeError` when the payload
value is a list or string that passed the membership test. -/
def resolveItems (j : JValue) : Except PyError (Option JValue) :=
  match j with
  | .obj fs =>
      if hasKey fs "payload" then
        match pyIn (.str "results") (getD fs "payload" .null) with
        | .error e => .error e
        | .ok true =>
            match pyIndexStr (getD fs "payload" .null) "results" with
            | .error e => .error e
            | .ok v => .ok (some v)
        | .ok false => .ok (some (.arr [.obj fs]))
      else .ok (some (.arr [.obj fs]))
  | .arr xs => .ok (some (.arr xs))
  | _ => .ok none

/-- Observable outcome of `process_json_data`: a returned row list, the
unsupported-shape exit, or an uncaught Python exception. -/
inductive POutcome where
  | rows (rs : List Row) : POutcome
  | unsupported : POutcome
  | pyErr (e : PyError) : POutcome

/-- `process_json_data` (lines 36-124 of `json_to_excel.py`): resolve
the root shape, then process all items with a single used set created
before the item loop. -/
def process_json_data (j : JValue) : POutcome :=
  match resolveItems j with
  | .error e => .pyErr e
  | .ok none => .unsupported
  | .ok (some itemsV) =>
      match processItems [] itemsV with
      | .error e => .pyErr e
      | .ok (rows, _) => .rows rows

/-! ## Spec-side definitions and concrete documents -/

/-- Root-shape resolution as the specification words it: rule 1 applies
only when the value is a mapping whose `payload` is itself a mapping
whose `results` value is a *sequence*; a mapping not matching rule 1 is
wrapped as a one-element item sequence; any non-mapping non-sequence is
rejected (`none`). Written from the spec, to be compared with
`resolveItems` translated from the code. -/
def resolveClaimed (j : JValue) : Option (List JValue) :=
  match j with
  | .obj fs =>
      match fs.find? (fun p => p.1 == "payload") with
      | some (_, .obj ps) =>
          (match ps.find? (fun p => p.1 == "results") with
           | some (_, .arr xs) => some xs
           | _ => some [.obj fs])
      | _ => some [.obj fs]
  | .arr xs => some xs
  | _ => none

/-- The root-shape rule the code actually implements, written directly
by cases (the amended form of claim C2): when a mapping has a `payload`
key whose value is a mapping containing key `results`, the `results`
value is used as the items value even when it is not a sequence; a
`payload` value that is a list or string is searched by Python `in`
(element equality resp. substring), and a hit leads to a `TypeError` at
the string subscription; a non-container `payload` value raises
`TypeError` at the membership test itself. -/
def resolveSpecAmended (j : JValue) : Except PyError (Option JValue) :=
  match j with
  | .obj fs =>
      match fs.find? (fun p => p.1 == "payload") with
      | none => .ok (some (.arr [.obj fs]))
      | some (_, .obj ps) =>
          (match ps.find? (fun p => p.1 == "results") with
           | some pr => .ok (some pr.2)
           | none => .ok (some (.arr [.obj fs])))
      | some (_, .arr xs) =>
          if xs.any (fun x => pyEq x (.str "results")) then .error .typeError
          else .ok (some (.arr [.obj fs]))
      | some (_, .str s) =>
          if substr "results" s then .error .typeError
          else .ok (some (.arr [.obj fs]))
      | some _ => .error .typeError
  | .arr xs => .ok (some (.arr xs))
  | _ => .ok none

/-- A value on which Python `for` raises `TypeError`. -/
def notIterable : JValue → Bool
  | .null => true
  | .bool _ => true
  | .num _ => true
  | _ => false

/-- Count contributed by one high-order entry: one row for the entry
itself plus one per low-order child. -/
def entryCountHot (hot : JValue) : Except PyError Nat :=
  match hot with
  | .obj fs =>
      match pyIter (getD fs "low_order_texts" (.arr [])) with
      | .error e => .error e
      | .ok lots => .ok (1 + lots.length)
  | _ => .error .attributeError

/-- Sum of `entryCountHot` over the high-order entries. -/
def entryCountHots : List JValue → Except PyError Nat
  | [] => .ok 0
  | h :: hs =>
      match entryCountHot h with
      | .error e => .error e
      | .ok n =>
          match entryCountHots hs with
          | .error e => .error e
          | .ok m => .ok (n + m)

/-- Number of high-order entries of an item plus the total number of
their low-order children. -/
def entryCountItem (item : JValue) : Except PyError Nat :=
  match item with
  | .obj fs =>
      match pyIter (getD fs "high_order_text" (.arr [])) with
      | .error e => .error e
      | .ok hots => entryCountHots hots
  | _ => .error .attributeError

/-- Sum of `entryCountItem` over a list of items. -/
def entryCountItemsList : List JValue → Except PyError Nat
  | [] => .ok 0
  | i :: is =>
      match entryCountItem i with
      | .error e => .error e
      | .ok n =>
          match entryCountItemsList is with
          | .error e => .error e
          | .ok m => .ok (n + m)

/-- Total entry count of the resolved items value. -/
def entryCountItems (itemsV : JValue) : Except PyError Nat :=
  match pyIter itemsV with
  | .error e => .error e
  | .ok items => entryCountItemsList items

/-- Total entry count of a whole document: `none` on the
unsupported-shape branch. -/
def totalCountDoc (j : JValue) : Except PyError (Option Nat) :=
  match resolveItems j with
  | .error e => .error e
  | .ok none => .ok none
  | .ok (some itemsV) =>
      match entryCountItems itemsV with
      | .error e => .error e
      | .ok n => .ok (some n)

/-- Forget the Reasonings field of a row (the only state-dependent
field); used to state the traversal-order invariant. -/
def eraseReasonings (r : Row) : Row :=
  ⟨r.textType, r.paragraphID, r.publicationID, r.taskText, r.tag, r.similarityScore, .null⟩

/-- The row a low-order entry contributes, with Reasonings forgotten: a
pure function of the entry and its parent, independent of any
used-publication-ID state. -/
def orderLotRow (hotParId : JValue) (lot : JValue) : Except PyError Row :=
  match lot with
  | .obj fs =>
      let tag := getD fs "tag" (.str ("INCON-" ++ pyStr hotParId))
      if truthy tag && pyStartsWith (pyStr tag) "CONF-" then
        .ok ⟨.null, .null, .null, .null, tag, .null, .null⟩
      else
        .ok ⟨.str "Low-Order Text", getD fs "paragraph_ID" (.str ""),
             getD fs "publication_ID" (.str ""), getD fs "text" (.str ""), tag,
             getD fs "similarity_score" (.str ""), .null⟩
  | _ => .error .attributeError

/-- Low-order rows of one high-order entry, in source order. -/
def orderLotRows (hotParId : JValue) : List JValue → Except PyError (List Row)
  | [] => .ok []
  | l :: ls =>
      match orderLotRow hotParId l with
      | .error e => .error e
      | .ok r =>
          match orderLotRows hotParId ls with
          | .error e => .error e
          | .ok rs => .ok (r :: rs)

/-- The row block of one high-order entry: exactly one high-order row
(Text Type `"High-Order Text"`, tags joined with `", "`, similarity
`"N/A"`), immediately followed by one row per low-order child in source
order. -/
def orderHotRows (hot : JValue) : Except PyError (List Row) :=
  match hot with
  | .obj fs =>
      match pyJoin ", " (getD fs "tags" (.arr [])) with
      | .error e => .error e
      | .ok tagsStr =>
          match pyIter (getD fs "low_order_texts" (.arr [])) with
          | .error e => .error e
          | .ok lots =>
              match orderLotRows (getD fs "paragraph_ID" (.str "")) lots with
              | .error e => .error e
              | .ok lrows =>
                  .ok (⟨.str "High-Order Text", getD fs "paragraph_ID" (.str ""),
                        getD fs "publication_ID" (.str ""), getD fs "text" (.str ""),
                        .str tagsStr, .str "N/A", .null⟩ :: lrows)
  | _ => .error .attributeError

/-- Concatenation of the row blocks of the high-order entries, in source
order. -/
def orderHotsRows : List JValue → Except PyError (List Row)
  | [] => .ok []
  | h :: hs =>
      match orderHotRows h with
      | .error e => .error e
      | .ok rows1 =>
          match orderHotsRows hs with
          | .error e => .error e
          | .ok rows2 => .ok (rows1 ++ rows2)

/-- Row blocks of one item, in source order. -/
def orderItemRows (item : JValue) : Except PyError (List Row) :=
  match item with
  | .obj fs =>
      match pyIter (getD fs "high_order_text" (.arr [])) with
      | .error e => .error e
      | .ok hots => orderHotsRows hots
  | _ => .error .attributeError

/-- Row blocks of all items, in source order. -/
def orderItemsRows : List JValue → Except PyError (List Row)
  | [] => .ok []
  | i :: is =>
      match orderItemRows i with
      | .error e => .error e
      | .ok rows1 =>
          match orderItemsRows is with
          | .error e => .error e
          | .ok rows2 => .ok (rows1 ++ rows2)

/-- The full traversal-ordered row sequence (Reasonings forgotten): the
order and per-entry shape the spec mandates, written as a pure traversal
with no used-publication-ID state. -/
def orderRows (itemsV : JValue) : Except PyError (List Row) :=
  match pyIter itemsV with
  | .error e => .error e
  | .ok items => orderItemsRows items

/-- The high-order entry of the end-to-end example in the spec (§8). -/
def exampleHot : JValue := .obj [("paragraph_ID", .str "P1"), ("publication_ID", .str "PubA"),
  ("text", .str "T1"), ("tags", .arr [.str "x"]),
  ("low_order_texts", .arr [
    .obj [("paragraph_ID", .str "L1"), ("publication_ID", .str "PubA"),
          ("text", .str "t1"), ("similarity_score", .num (9/10))],
    .obj [("paragraph_ID", .str "L2"), ("publication_ID", .str "PubA"),
          ("text", .str "t2"), ("similarity_score", .num (4/5))]])]

/-- The input document of the end-to-end example in the spec (§8). -/
def exampleDoc : JValue := .obj [("high_order_text", .arr [exampleHot]),
  ("reasonings", .arr [.obj [("publication_ID", .str "PubA"), ("reasoning", .str "because")]])]

/-- A mapping whose `payload.results` is not a sequence. -/
def payloadNonSeqDoc : JValue := .obj [("payload", .obj [("results", .num 42)])]

/-- One item whose single high-order entry has one low-order entry with
publication_ID `"A"`, and whose reasonings list maps `"A"` to `rk`. -/
def itemWithReasoning (pk rk : String) : JValue := .obj [
  ("high_order_text", .arr [.obj [("paragraph_ID", .str pk),
    ("low_order_texts", .arr [.obj [("publication_ID", .str "A")]])]]),
  ("reasonings", .arr [.obj [("publication_ID", .str "A"), ("reasoning", .str rk)]])]

/-- Two items, both using publication_ID `"A"`, each with its own
matching reasoning entry. -/
def twoItemDoc : JValue := .arr [itemWithReasoning "P1" "r1", itemWithReasoning "P2" "r2"]

/-- A document whose single low-order entry has the falsy
publication_ID `""` while a reasoning entry with publication_ID `""`
exists. -/
def emptyPidDoc : JValue := .obj [
  ("high_order_text", .arr [.obj [("paragraph_ID", .str "P1"),
    ("low_order_texts", .arr [.obj [("publication_ID", .str "")]])]]),
  ("reasonings", .arr [.obj [("publication_ID", .str ""), ("reasoning", .str "r")]])]

/-- A document with a high-order entry whose `tags` field is a string
(the wrong type for a field that is iterated). -/
def tagsStringDoc : JValue := .obj [("high_order_text", .arr [.obj [("tags", .str "ab")]])]

/-! ## Helper lemmas -/

theorem any_eq_isSome_find? (l : List α) (p : α → Bool) :
    l.any p = (l.find? p).isSome := by
  induction l with
  | nil => rfl
  | cons x xs ih => cases hpx : p x <;> simp [List.any_cons, List.find?_cons, hpx, ih]

theorem pyEq_str (a b : String) : pyEq (.str a) (.str b) = (a == b) := rfl

theorem getD_of_not_hasKey (fs : List (String × JValue)) (k : String) (d : JValue)
    (h : hasKey fs k = false) : getD fs k d = d := by
  unfold getD
  unfold hasKey at h
  cases hf : fs.find? (fun p => p.1 == k) with
  | none => rfl
  | some p => rw [hf] at h; simp at h

theorem find?_append_right (fs gs : List (String × JValue)) (k : String)
    (h : (fs.find? (fun p => p.1 == k)).isSome = false) :
    (fs ++ gs).find? (fun p => p.1 == k) = gs.find? (fun p => p.1 == k) := by
  induction fs with
  | nil => rfl
  | cons p ps ih =>
      rw [List.cons_append]
      by_cases hp : p.1 = k
      · exfalso
        rw [show ((p :: ps).find? fun q => q.1 == k) = some p from by
          simp [List.find?, hp]] at h
        simp at h
      · have hpb : (p.1 == k) = false := by simp [hp]
        rw [show ((p :: ps).find? fun q => q.1 == k) = ps.find? (fun q => q.1 == k) from by
          simp [List.find?, hpb]] at h
        rw [show ((p :: (ps ++ gs)).find? fun q => q.1 == k) =
            (ps ++ gs).find? (fun q => q.1 == k) from by simp [List.find?, hpb]]
        exact ih h

/-- A value whose `str()` begins with `"CONF-"` is truthy: the falsy
values render as `""`, `"0"`, `"None"`, `"False"`, `"[]"` and the
braces. -/
theorem truthy_of_conf (v : JValue) (h : pyStartsWith (pyStr v) "CONF-" = true) :
    truthy v = true := by
  cases v with
  | null => exact absurd h (by decide)
  | bool b =>
      cases b with
      | false => exact absurd h (by decide)
      | true => rfl
  | num q =>
      by_cases hq : q = 0
      · subst hq; exact absurd h (by decide)
      · simp [truthy, bne, hq]
  | str s =>
      by_cases hs : s = ""
      · subst hs; exact absurd h (by decide)
      · simp [truthy, bne, hs]
  | arr xs =>
      cases xs with
      | nil => exact absurd h (by decide)
      | cons a l => rfl
  | obj fs =>
      cases fs with
      | nil => exact absurd h (by decide)
      | cons a l => rfl

/-- Inversion of `lotReasoning` for a truthy publication_ID. -/
theorem lotReasoning_inv (rV : JValue) (used : List JValue) (pid t : JValue)
    (u2 : List JValue) (h : lotReasoning rV used pid = .ok (t, u2))
    (ht : truthy pid = true) :
    (pyMem pid used = true → t = JValue.null ∧ u2 = used) ∧
    (pyMem pid used = false → u2 = pid :: used ∧
      ∀ rs, pyIter rV = .ok rs → findReasoning pid rs = .ok t) := by
  unfold lotReasoning at h
  split at h
  · split at h
    · split at h
      · rename_i hmem
        simp only [Except.ok.injEq, Prod.mk.injEq] at h
        obtain ⟨h1, h2⟩ := h
        exact ⟨fun _ => ⟨h1.symm, h2.symm⟩, fun hc => absurd hmem (by rw [hc]; simp)⟩
      · rename_i hmem
        split at h
        · simp at h
        · split at h
          · simp at h
          · rename_i x1 rs hi x2 rt hfr
            simp only [Except.ok.injEq, Prod.mk.injEq] at h
            obtain ⟨h1, h2⟩ := h
            refine ⟨fun hc => absurd hc (by simpa using hmem), fun _ => ⟨h2.symm, ?_⟩⟩
            intro rs2 hi2
            rw [hi] at hi2
            injection hi2 with hrs
            rw [← hrs, hfr, h1]
    · simp at h
  · rename_i hcond
    exact absurd ht hcond

/-- `lotReasoning` never removes anything from the used set. -/
theorem lotReasoning_mono (rV : JValue) (used : List JValue) (pid t : JValue)
    (u2 : List JValue) (h : lotReasoning rV used pid = .ok (t, u2)) :
    ∀ x ∈ used, x ∈ u2 := by
  unfold lotReasoning at h
  split at h
  · split at h
    · split at h
      · simp only [Except.ok.injEq, Prod.mk.injEq] at h
        rw [← h.2]
        exact fun x hx => hx
      · split at h
        · simp at h
        · split at h
          · simp at h
          · simp only [Except.ok.injEq, Prod.mk.injEq] at h
            rw [← h.2]
            exact fun x hx => List.mem_cons_of_mem _ hx
    · simp at h
  · simp only [Except.ok.injEq, Prod.mk.injEq] at h
    rw [← h.2]
    exact fun x hx => hx

/-- Whatever branch builds the row, its Reasonings field is exactly the
value resolved by `lotReasoning`, and the returned set is exactly the
set `lotReasoning` produced. -/
theorem processLot_reasoning_eq (rV hp : JValue) (used : List JValue)
    (fs : List (String × JValue)) (row : Row) (u2 : List JValue)
    (h : processLot rV hp used (.obj fs) = .ok (row, u2)) :
    lotReasoning rV used (getD fs "publication_ID" (.str "")) = .ok (row.reasonings, u2) := by
  unfold processLot at h
  split at h
  · rename_i v fs2 heq
    injection heq with hfs
    subst hfs
    dsimp only at h
    split at h
    · simp at h
    · rename_i hlr
      rw [hlr]
      split at h
      · simp only [Except.ok.injEq, Prod.mk.injEq] at h
        obtain ⟨h1, h2⟩ := h
        rw [← h1, ← h2]
      · simp only [Except.ok.injEq, Prod.mk.injEq] at h
        obtain ⟨h1, h2⟩ := h
        rw [← h1, ← h2]
  · rename_i x hne
    exact absurd rfl (hne fs)

/-- When the resolved tag triggers the CONF branch, the produced row has
the suppressed shape. -/
theorem processLot_conf_row (rV hp : JValue) (used : List JValue)
    (fs : List (String × JValue)) (row : Row) (u2 : List JValue)
    (h : processLot rV hp used (.obj fs) = .ok (row, u2))
    (hc : (truthy (getD fs "tag" (.str ("INCON-" ++ pyStr hp))) &&
      pyStartsWith (pyStr (getD fs "tag" (.str ("INCON-" ++ pyStr hp)))) "CONF-") = true) :
    row = ⟨.null, .null, .null, .null, getD fs "tag" (.str ("INCON-" ++ pyStr hp)), .null,
           row.reasonings⟩ := by
  unfold processLot at h
  split at h
  · rename_i v fs2 heq
    injection heq with hfs
    subst hfs
    dsimp only at h
    split at h
    · simp at h
    · rename_i hlr
      split at h
      · simp only [Except.ok.injEq, Prod.mk.injEq] at h
        obtain ⟨h1, h2⟩ := h
        rw [← h1]
      · rename_i hneg
        exact absurd hc hneg
  · rename_i x hne
    exact absurd rfl (hne fs)

/-- A falsy publication_ID skips the whole reasoning block: `None` is
kept and the used set is untouched. -/
theorem lotReasoning_falsy (rV : JValue) (used : List JValue) (pid : JValue)
    (h : truthy pid = false) : lotReasoning rV used pid = .ok (.null, used) := by
  unfold lotReasoning
  rw [h]
  simp

/-- C10: a low-order entry whose publication_ID is absent, `""`, or
otherwise falsy gets `None` as Reasonings and is never added to the
used set, even when a reasoning entry with an equal publication_ID
exists in the item's reasonings list. -/
theorem C10_falsy_pid (rV hp : JValue) (used : List JValue)
    (fs : List (String × JValue)) (row : Row) (u2 : List JValue)
    (h : processLot rV hp used (.obj fs) = .ok (row, u2))
    (hf : truthy (getD fs "publication_ID" (.str "")) = false) :
    row.reasonings = JValue.null ∧ u2 = used := by
  have h1 := processLot_reasoning_eq rV hp used fs row u2 h
  rw [lotReasoning_falsy rV used _ hf] at h1
  simp only [Except.ok.injEq, Prod.mk.injEq] at h1
  exact ⟨h1.1.symm, h1.2.symm⟩

/-- Witness for C10: the low-order entry with publication_ID `""` of
`emptyPidDoc`, processed against a reasonings list that does contain a
matching entry, keeps `None` and leaves the used set empty. -/
theorem C10_falsy_pid_witness :
    (⟨.str "Low-Order Text", .str "", .str "", .str "", .str "INCON-P1", .str "",
      .null⟩ : Row).reasonings = JValue.null ∧ ([] : List JValue) = [] :=
  C10_falsy_pid
    (.arr [.obj [("publication_ID", .str ""), ("reasoning", .str "r")]])
    (.str "P1") [] [("publication_ID", .str "")]
    ⟨.str "Low-Order Text", .str "", .str "", .str "", .str "INCON-P1", .str "", .null⟩
    [] rfl rfl

/-- C5: a low-order entry whose resolved tag, viewed as text, starts
with `"CONF-"` produces a row whose Text Type, Paragraph ID,
Publication ID, Task Text and Similarity Score are all null, whose Tag
is the literal resolved tag, and whose Reasonings is exactly the value
resolved by the reasoning block — which also updates the used set just
as for a non-suppressed row (the slot is still consumed). -/
theorem C5_conf_suppression (rV hp : JValue) (used : List JValue)
    (fs : List (String × JValue)) (row : Row) (u2 : List JValue)
    (h : processLot rV hp used (.obj fs) = .ok (row, u2))
    (hc : pyStartsWith (pyStr (getD fs "tag" (.str ("INCON-" ++ pyStr hp)))) "CONF-" = true) :
    row.textType = JValue.null ∧ row.paragraphID = JValue.null ∧
    row.publicationID = JValue.null ∧ row.taskText = JValue.null ∧
    row.similarityScore = JValue.null ∧
    row.tag = getD fs "tag" (.str ("INCON-" ++ pyStr hp)) ∧
    lotReasoning rV used (getD fs "publication_ID" (.str "")) = .ok (row.reasonings, u2) := by
  have ht := truthy_of_conf _ hc
  have hrow := processLot_conf_row rV hp used fs row u2 h (by rw [ht, hc]; rfl)
  refine ⟨?_, ?_, ?_, ?_, ?_, ?_, processLot_reasoning_eq rV hp used fs row u2 h⟩ <;>
    rw [hrow]

/-- Witness for C5: the `"CONF-42"` low-order entry of a one-entry item;
the suppressed row keeps the resolved reasoning `"why"` and the
publication_ID `"B"` is marked used. -/
theorem C5_conf_suppression_witness :
    (JValue.null = JValue.null ∧ JValue.null = JValue.null ∧
     JValue.null = JValue.null ∧ JValue.null = JValue.null ∧
     JValue.null = JValue.null ∧
     JValue.str "CONF-42" = getD [("publication_ID", .str "B"), ("tag", .str "CONF-42")]
       "tag" (.str ("INCON-" ++ pyStr (.str "P1"))) ∧
     lotReasoning (.arr [.obj [("publication_ID", .str "B"), ("reasoning", .str "why")]])
       [] (getD [("publication_ID", .str "B"), ("tag", .str "CONF-42")]
         "publication_ID" (.str "")) = .ok (JValue.str "why", [.str "B"])) :=
  C5_conf_suppression
    (.arr [.obj [("publication_ID", .str "B"), ("reasoning", .str "why")]])
    (.str "P1") [] [("publication_ID", .str "B"), ("tag", .str "CONF-42")]
    ⟨.null, .null, .null, .null, .str "CONF-42", .null, .str "why"⟩
    [.str "B"] rfl rfl

/-- C4 counterexample: on `emptyPidDoc` the low-order entry has
publication_ID `""`, which has not been used, and the item's reasonings
list contains an entry whose publication_ID is exactly equal; the claim
then promises Reasonings `"r"`, but the code leaves it `None`. -/
theorem C4_reasoning_cex :
    ¬ ∃ r1 r2, process_json_data emptyPidDoc = POutcome.rows [r1, r2] ∧
      r2.reasonings = JValue.str "r" := by
  rintro ⟨r1, r2, h, hr⟩
  rw [show process_json_data emptyPidDoc = POutcome.rows [
    ⟨.str "High-Order Text", .str "P1", .str "", .str "", .str "", .str "N/A", .str ""⟩,
    ⟨.str "Low-Order Text", .str "", .str "", .str "", .str "INCON-P1", .str "", .null⟩]
    from rfl] at h
  simp only [POutcome.rows.injEq, List.cons.injEq] at h
  obtain ⟨-, h2, -⟩ := h
  rw [← h2] at hr
  simp at hr

/-- C4 amended: the first-occurrence reasoning rule holds for *truthy*
publication_IDs only. For a truthy, not-yet-used publication_ID, the
attached Reasonings is the reasoning text of the first reasoning entry
of the current item whose publication_ID is Python-equal (exact match,
no stringification) to it, and the publication_ID is marked used the
moment it is first seen whether or not any entry matched; a truthy
publication_ID already in the used set gets `None` and leaves the set
unchanged. (Falsy publication_IDs never participate — see C10.) -/
theorem C4_reasoning_amended :
    ∀ (rV hp : JValue) (used : List JValue) (fs : List (String × JValue)) (pid : JValue)
      (row : Row) (u2 : List JValue),
      processLot rV hp used (.obj fs) = .ok (row, u2) →
      getD fs "publication_ID" (.str "") = pid →
      truthy pid = true →
      (pyMem pid used = true → row.reasonings = JValue.null ∧ u2 = used) ∧
      (pyMem pid used = false → u2 = pid :: used ∧
        ∀ rs, pyIter rV = .ok rs → findReasoning pid rs = .ok row.reasonings) := by
  intro rV hp used fs pid row u2 h hpid ht
  subst hpid
  exact lotReasoning_inv rV used _ row.reasonings u2
    (processLot_reasoning_eq rV hp used fs row u2 h) ht

/-- Witness for C4 (amended): a fresh truthy publication_ID `"B"` with
an empty reasonings list is marked used and resolves to `None`. -/
theorem C4_reasoning_amended_witness :
    findReasoning (JValue.str "B") [] = .ok JValue.null :=
  ((C4_reasoning_amended (.arr []) (.str "") [] [("publication_ID", .str "B")] (.str "B")
      ⟨.str "Low-Order Text", .str "", .str "B", .str "", .str "INCON-", .str "", .null⟩
      [.str "B"] rfl rfl rfl).2 rfl).2 [] rfl

/-- `processLot` never removes anything from the used set. -/
theorem processLot_mono (rV hp : JValue) (used : List JValue) (lot : JValue)
    (row : Row) (u2 : List JValue) (h : processLot rV hp used lot = .ok (row, u2)) :
    ∀ x ∈ used, x ∈ u2 := by
  cases lot with
  | obj fs =>
      exact lotReasoning_mono rV used _ row.reasonings u2
        (processLot_reasoning_eq rV hp used fs row u2 h)
  | null => simp [processLot] at h
  | bool b => simp [processLot] at h
  | num q => simp [processLot] at h
  | str s => simp [processLot] at h
  | arr xs => simp [processLot] at h

/-- `processLots` never removes anything from the used set. -/
theorem processLots_mono (rV hp : JValue) (used : List JValue) (ls : List JValue)
    (rows : List Row) (u2 : List JValue) (h : processLots rV hp used ls = .ok (rows, u2)) :
    ∀ x ∈ used, x ∈ u2 := by
  induction ls generalizing used rows with
  | nil =>
      unfold processLots at h
      simp only [Except.ok.injEq, Prod.mk.injEq] at h
      rw [← h.2]
      exact fun x hx => hx
  | cons l ls ih =>
      unfold processLots at h
      split at h
      · simp at h
      · rename_i row1 u1 h1
        split at h
        · simp at h
        · rename_i rows2 uu h2
          simp only [Except.ok.injEq, Prod.mk.injEq] at h
          obtain ⟨hr, hu⟩ := h
          subst hu
          exact fun x hx => ih u1 rows2 h2 x (processLot_mono rV hp used l row1 u1 h1 x hx)

/-- `processHot` never removes anything from the used set. -/
theorem processHot_mono (rV : JValue) (used : List JValue) (hot : JValue)
    (rows : List Row) (u2 : List JValue) (h : processHot rV used hot = .ok (rows, u2)) :
    ∀ x ∈ used, x ∈ u2 := by
  cases hot with
  | obj fs =>
      unfold processHot at h
      split at h
      · rename_i v fs2 heq
        injection heq with hfs
        subst hfs
        dsimp only at h
        split at h
        · simp at h
        · rename_i hjoin
          split at h
          · simp at h
          · rename_i hiter
            split at h
            · simp at h
            · rename_i hlots
              simp only [Except.ok.injEq, Prod.mk.injEq] at h
              obtain ⟨hr, hu⟩ := h
              subst hu
              exact fun x hx => processLots_mono _ _ _ _ _ _ hlots x hx
      · rename_i x hne
        exact absurd rfl (hne fs)
  | null => simp [processHot] at h
  | bool b => simp [processHot] at h
  | num q => simp [processHot] at h
  | str s => simp [processHot] at h
  | arr xs => simp [processHot] at h

/-- `processHots` never removes anything from the used set. -/
theorem processHots_mono (rV : JValue) (used : List JValue) (hs : List JValue)
    (rows : List Row) (u2 : List JValue) (h : processHots rV used hs = .ok (rows, u2)) :
    ∀ x ∈ used, x ∈ u2 := by
  induction hs generalizing used rows with
  | nil =>
      unfold processHots at h
      simp only [Except.ok.injEq, Prod.mk.injEq] at h
      rw [← h.2]
      exact fun x hx => hx
  | cons hh hs ih =>
      unfold processHots at h
      split at h
      · simp at h
      · rename_i rows1 u1 h1
        split at h
        · simp at h
        · rename_i rows2 uu h2
          simp only [Except.ok.injEq, Prod.mk.injEq] at h
          obtain ⟨hr, hu⟩ := h
          subst hu
          exact fun x hx => ih u1 rows2 h2 x (processHot_mono rV used hh rows1 u1 h1 x hx)

/-- `processItem` never removes anything from the used set. -/
theorem processItem_mono (used : List JValue) (item : JValue)
    (rows : List Row) (u2 : List JValue) (h : processItem used item = .ok (rows, u2)) :
    ∀ x ∈ used, x ∈ u2 := by
  cases item with
  | obj fs =>
      unfold processItem at h
      split at h
      · rename_i v fs2 heq
        injection heq with hfs
        subst hfs
        split at h
        · simp at h
        · rename_i hiter
          exact processHots_mono _ used _ rows u2 h
      · rename_i x hne
        exact absurd rfl (hne fs)
  | null => simp [processItem] at h
  | bool b => simp [processItem] at h
  | num q => simp [processItem] at h
  | str s => simp [processItem] at h
  | arr xs => simp [processItem] at h

/-- `processItemsList` never removes anything from the used set. -/
theorem processItemsList_mono (used : List JValue) (items : List JValue)
    (rows : List Row) (u2 : List JValue) (h : processItemsList used items = .ok (rows, u2)) :
    ∀ x ∈ used, x ∈ u2 := by
  induction items generalizing used rows with
  | nil =>
      unfold processItemsList at h
      simp only [Except.ok.injEq, Prod.mk.injEq] at h
      rw [← h.2]
      exact fun x hx => hx
  | cons i is ih =>
      unfold processItemsList at h
      split at h
      · simp at h
      · rename_i rows1 u1 h1
        split at h
        · simp at h
        · rename_i rows2 uu h2
          simp only [Except.ok.injEq, Prod.mk.injEq] at h
          obtain ⟨hr, hu⟩ := h
          subst hu
          exact fun x hx => ih u1 rows2 h2 x (processItem_mono used i rows1 u1 h1 x hx)

/-- `processItems` never removes anything from the used set. -/
theorem processItems_mono (used : List JValue) (itemsV : JValue)
    (rows : List Row) (u2 : List JValue) (h : processItems used itemsV = .ok (rows, u2)) :
    ∀ x ∈ used, x ∈ u2 := by
  unfold processItems at h
  split at h
  · simp at h
  · rename_i items hiter
    exact processItemsList_mono used items rows u2 h

/-- C3 counterexample: on the two-item document, the claim promises
that publication_ID `"A"`, having received reasoning `"r1"` in the
first item, receives reasoning again in the second item (its fourth row
would carry `"r2"`); the code leaves the fourth row's Reasonings
`None`. -/
theorem C3_used_set_cex :
    ¬ ∃ r1 r2 r3 r4, process_json_data twoItemDoc = POutcome.rows [r1, r2, r3, r4] ∧
      r4.reasonings = JValue.str "r2" := by
  rintro ⟨r1, r2, r3, r4, h, hr⟩
  rw [show process_json_data twoItemDoc = POutcome.rows [
    ⟨.str "High-Order Text", .str "P1", .str "", .str "", .str "", .str "N/A", .str ""⟩,
    ⟨.str "Low-Order Text", .str "", .str "A", .str "", .str "INCON-P1", .str "", .str "r1"⟩,
    ⟨.str "High-Order Text", .str "P2", .str "", .str "", .str "", .str "N/A", .str ""⟩,
    ⟨.str "Low-Order Text", .str "", .str "A", .str "", .str "INCON-P2", .str "", .null⟩]
    from rfl] at h
  simp only [POutcome.rows.injEq, List.cons.injEq] at h
  obtain ⟨-, -, -, h4, -⟩ := h
  rw [← h4] at hr
  simp at hr

/-- C3 amended: the used-publication-ID set is scoped to the *whole
run*, not to one item: it is created once, spans all high-order entries
of all items, and is never reset between items, so a publication_ID
that received reasoning in the first item cannot receive reasoning
again in the second (on `twoItemDoc` the second item's low-order row
gets `None`). -/
theorem C3_used_set_amended :
    (∀ (used : List JValue) (itemsV : JValue) (rows : List Row) (u2 : List JValue),
      processItems used itemsV = .ok (rows, u2) → ∀ x ∈ used, x ∈ u2) ∧
    process_json_data twoItemDoc = POutcome.rows [
      ⟨.str "High-Order Text", .str "P1", .str "", .str "", .str "", .str "N/A", .str ""⟩,
      ⟨.str "Low-Order Text", .str "", .str "A", .str "", .str "INCON-P1", .str "", .str "r1"⟩,
      ⟨.str "High-Order Text", .str "P2", .str "", .str "", .str "", .str "N/A", .str ""⟩,
      ⟨.str "Low-Order Text", .str "", .str "A", .str "", .str "INCON-P2", .str "", .null⟩] :=
  ⟨fun used itemsV rows u2 h => processItems_mono used itemsV rows u2 h, rfl⟩

/-- Witness for C3 (amended): a used publication_ID survives the
processing of a further (empty) items value. -/
theorem C3_used_set_amended_witness :
    JValue.str "A" ∈ ([JValue.str "A"] : List JValue) :=
  C3_used_set_amended.1 [JValue.str "A"] (JValue.arr []) [] [JValue.str "A"] rfl
    (JValue.str "A") (List.mem_cons_self _ _)

/-- C7 counterexample: the end-to-end example promises three rows whose
third (low-order entry L2, its publication_ID already used) carries
Reasonings equal to the empty string; the code leaves it `None`. -/
theorem C7_example_cex :
    ¬ ∃ r1 r2 r3, process_json_data exampleDoc = POutcome.rows [r1, r2, r3] ∧
      r3.reasonings = JValue.str "" := by
  rintro ⟨r1, r2, r3, h, hr⟩
  rw [show process_json_data exampleDoc = POutcome.rows [
    ⟨.str "High-Order Text", .str "P1", .str "PubA", .str "T1", .str "x", .str "N/A", .str ""⟩,
    ⟨.str "Low-Order Text", .str "L1", .str "PubA", .str "t1", .str "INCON-P1", .num (9/10),
     .str "because"⟩,
    ⟨.str "Low-Order Text", .str "L2", .str "PubA", .str "t2", .str "INCON-P1", .num (4/5),
     .null⟩] from rfl] at h
  simp only [POutcome.rows.injEq, List.cons.injEq] at h
  obtain ⟨-, -, h3, -⟩ := h
  rw [← h3] at hr
  simp at hr

/-- C7 amended: on the example document the run yields exactly three
rows — the high-order row (Tag `"x"`, Similarity `"N/A"`, Reasonings
`""`), row L1 (Tag `"INCON-P1"`, Reasonings `"because"`), and row L2
(Tag `"INCON-P1"`) whose Reasonings is `None` (null), not the empty
string. -/
theorem C7_example_amended :
    process_json_data exampleDoc = POutcome.rows [
      ⟨.str "High-Order Text", .str "P1", .str "PubA", .str "T1", .str "x", .str "N/A",
       .str ""⟩,
      ⟨.str "Low-Order Text", .str "L1", .str "PubA", .str "t1", .str "INCON-P1",
       .num (9/10), .str "because"⟩,
      ⟨.str "Low-Order Text", .str "L2", .str "PubA", .str "t2", .str "INCON-P1",
       .num (4/5), .null⟩] := rfl

/-- C8 counterexample: `tagsStringDoc` contains a high-order entry whose
`tags` field is a string — the wrong type for an iterated field — yet
processing does not fail: the string is iterated character-wise, joined
to the Tag `"a, b"`, and a row is returned. -/
theorem C8_malformed_cex :
    process_json_data tagsStringDoc = POutcome.rows [
      ⟨.str "High-Order Text", .str "", .str "", .str "", .str "a, b", .str "N/A",
       .str ""⟩] := rfl

/-- C8 amended: there is no dedicated `MalformedEntryError` anywhere;
what the code does is let the underlying Python exception escape. An
item whose `high_order_text` value is not iterable (None, a boolean, or
a number) aborts processing with an uncaught `TypeError`, and the run
then returns no rows at all — but some wrong-typed fields (such as a
string-valued `tags`) are silently coerced instead of failing. -/
theorem C8_malformed_amended :
    (∀ (used : List JValue) (fs : List (String × JValue)),
      notIterable (getD fs "high_order_text" (.arr [])) = true →
      processItem used (.obj fs) = .error PyError.typeError) ∧
    process_json_data (JValue.obj [("high_order_text", JValue.num 42)]) =
      POutcome.pyErr PyError.typeError := by
  refine ⟨fun used fs hni => ?_, rfl⟩
  rw [show processItem used (.obj fs) =
      (match pyIter (getD fs "high_order_text" (.arr [])) with
       | Except.error e => Except.error e
       | Except.ok hots => processHots (getD fs "reasonings" (.arr [])) used hots) from rfl]
  cases hv : getD fs "high_order_text" (.arr []) with
  | null => rfl
  | bool b => rfl
  | num q => rfl
  | str s => rw [hv] at hni; simp [notIterable] at hni
  | arr xs => rw [hv] at hni; simp [notIterable] at hni
  | obj gs => rw [hv] at hni; simp [notIterable] at hni

/-- Witness for C8 (amended): an item whose `high_order_text` is the
number 42 makes `processItem` raise `TypeError`. -/
theorem C8_malformed_amended_witness :
    processItem [] (.obj [("high_order_text", JValue.num 42)]) = .error PyError.typeError :=
  C8_malformed_amended.1 [] [("high_order_text", JValue.num 42)] rfl

/-- C2 counterexample: `{"payload": {"results": 42}}` has a `results`
value that is not a sequence; the claim then mandates rule 3 (wrap the
mapping as a one-element item sequence, hence a clean run), but the
code takes branch 1 without checking sequence-ness, binds `items = 42`,
and crashes with an uncaught `TypeError` at the item loop. -/
theorem C2_root_shape_cex :
    resolveClaimed payloadNonSeqDoc = some [payloadNonSeqDoc] ∧
    process_json_data payloadNonSeqDoc = POutcome.pyErr PyError.typeError :=
  ⟨rfl, rfl⟩

/-- C2 amended: the code's root-shape dispatch is exactly
`resolveSpecAmended` — branch 1 fires whenever the mapping's `payload`
value contains `results` in Python's `in` sense and performs no
sequence check; and only the values hitting the final `else` (neither
mapping nor sequence) take the reported-error nonzero-exit path, on
which no rows are produced. -/
theorem C2_root_shape_amended :
    (∀ j, resolveItems j = resolveSpecAmended j) ∧
    (∀ j, resolveItems j = Except.ok none → process_json_data j = POutcome.unsupported) := by
  constructor
  · intro j
    cases j with
    | obj fs =>
        cases hf : fs.find? (fun p => p.1 == "payload") with
        | none => simp [resolveItems, resolveSpecAmended, hasKey, hf]
        | some p =>
            obtain ⟨k, v⟩ := p
            have hk : hasKey fs "payload" = true := by simp [hasKey, hf]
            have hg : getD fs "payload" .null = v := by simp [getD, hf]
            cases v with
            | obj ps =>
                have hpred : (fun q : String × JValue => pyEq (.str q.1) (.str "results")) =
                    (fun q : String × JValue => q.1 == "results") := by
                  funext q
                  exact pyEq_str q.1 "results"
                cases hr : ps.find? (fun q => q.1 == "results") with
                | none =>
                    have hany : (ps.any fun q => pyEq (.str q.1) (.str "results")) = false := by
                      rw [hpred, any_eq_isSome_find?, hr]
                      rfl
                    simp [resolveItems, resolveSpecAmended, hk, hg, hf, hr, pyIn, hashable, hany]
                | some pr =>
                    have hany : (ps.any fun q => pyEq (.str q.1) (.str "results")) = true := by
                      rw [hpred, any_eq_isSome_find?, hr]
                      rfl
                    simp [resolveItems, resolveSpecAmended, hk, hg, hf, hr, pyIn, hashable,
                      hany, pyIndexStr]
            | arr xs =>
                cases ha : xs.any (fun x => pyEq x (.str "results")) with
                | true => simp [resolveItems, resolveSpecAmended, hk, hg, hf, pyIn, ha, pyIndexStr]
                | false => simp [resolveItems, resolveSpecAmended, hk, hg, hf, pyIn, ha]
            | str s =>
                cases hs : substr "results" s with
                | true => simp [resolveItems, resolveSpecAmended, hk, hg, hf, pyIn, hs, pyIndexStr]
                | false => simp [resolveItems, resolveSpecAmended, hk, hg, hf, pyIn, hs]
            | null => simp [resolveItems, resolveSpecAmended, hk, hg, hf, pyIn]
            | bool b => simp [resolveItems, resolveSpecAmended, hk, hg, hf, pyIn]
            | num q => simp [resolveItems, resolveSpecAmended, hk, hg, hf, pyIn]
    | arr xs => rfl
    | null => rfl
    | bool b => rfl
    | num q => rfl
    | str s => rfl
  · intro j h
    unfold process_json_data
    rw [h]

/-- Witness for C2 (amended): the bare number 42 is neither a mapping
nor a sequence and takes the unsupported-shape exit. -/
theorem C2_root_shape_amended_witness :
    process_json_data (JValue.num 42) = POutcome.unsupported :=
  C2_root_shape_amended.2 (JValue.num 42) rfl

theorem find?_append_left (fs gs : List (String × JValue)) (k : String) (x : String × JValue)
    (h : fs.find? (fun p => p.1 == k) = some x) :
    (fs ++ gs).find? (fun p => p.1 == k) = some x := by
  induction fs with
  | nil => simp [List.find?] at h
  | cons p ps ih =>
      rw [List.cons_append]
      by_cases hp : p.1 = k
      · rw [show ((p :: ps).find? fun q => q.1 == k) = some p from by
          simp [List.find?, hp]] at h
        rw [show ((p :: (ps ++ gs)).find? fun q => q.1 == k) = some p from by
          simp [List.find?, hp]]
        exact h
      · have hpb : (p.1 == k) = false := by simp [hp]
        rw [show ((p :: ps).find? fun q => q.1 == k) = ps.find? (fun q => q.1 == k) from by
          simp [List.find?, hpb]] at h
        rw [show ((p :: (ps ++ gs)).find? fun q => q.1 == k) =
            (ps ++ gs).find? (fun q => q.1 == k) from by simp [List.find?, hpb]]
        exact ih h

/-- Appending a binding for a different key does not change a lookup. -/
theorem getD_append_single (fs : List (String × JValue)) (k r : String) (v d : JValue)
    (hne : k ≠ r) : getD (fs ++ [(r, v)]) k d = getD fs k d := by
  unfold getD
  cases hf : fs.find? (fun p => p.1 == k) with
  | some x => rw [find?_append_left fs [(r, v)] k x hf]
  | none =>
      rw [find?_append_right fs [(r, v)] k (by rw [hf]; rfl)]
      have hrk : (r == k) = false := by
        rw [beq_eq_false_iff_ne]
        exact fun hh => hne hh.symm
      rw [show (([(r, v)] : List (String × JValue)).find? fun p => p.1 == k) = none from by
        simp [List.find?, hrk]]

/-- Appending a binding for an absent key makes the lookup hit it. -/
theorem getD_append_self (fs : List (String × JValue)) (r : String) (v d : JValue)
    (h : hasKey fs r = false) : getD (fs ++ [(r, v)]) r d = v := by
  unfold getD
  unfold hasKey at h
  rw [find?_append_right fs [(r, v)] r h]
  simp [List.find?]

/-- C9: missing optional fields default to empty collections and the
processing never raises on account of the absence — each field
independently, the other fields arbitrary. An item without
`high_order_text` contributes no rows and leaves the used set alone
(whatever its `reasonings` holds). A high-order entry without `tags`
and without `low_order_texts` yields exactly its own row, with an
empty joined Tag. An item without `reasonings` is processed exactly as
if it carried an explicit empty reasonings list; likewise a high-order
entry without `tags` (its low-order children arbitrary), and one
without `low_order_texts` (its tags arbitrary), are processed exactly
as if they carried the explicit empty list. -/
theorem C9_defaults :
    (∀ (used : List JValue) (fs : List (String × JValue)),
      hasKey fs "high_order_text" = false →
      processItem used (.obj fs) = .ok ([], used)) ∧
    (∀ (rV : JValue) (used : List JValue) (fs : List (String × JValue)),
      hasKey fs "tags" = false → hasKey fs "low_order_texts" = false →
      processHot rV used (.obj fs) = .ok
        ([⟨.str "High-Order Text", getD fs "paragraph_ID" (.str ""),
           getD fs "publication_ID" (.str ""), getD fs "text" (.str ""),
           .str "", .str "N/A", .str ""⟩], used)) ∧
    (∀ (used : List JValue) (fs : List (String × JValue)),
      hasKey fs "reasonings" = false →
      processItem used (.obj fs) =
        processItem used (.obj (fs ++ [("reasonings", .arr [])]))) ∧
    (∀ (rV : JValue) (used : List JValue) (fs : List (String × JValue)),
      hasKey fs "tags" = false →
      processHot rV used (.obj fs) =
        processHot rV used (.obj (fs ++ [("tags", .arr [])]))) ∧
    (∀ (rV : JValue) (used : List JValue) (fs : List (String × JValue)),
      hasKey fs "low_order_texts" = false →
      processHot rV used (.obj fs) =
        processHot rV used (.obj (fs ++ [("low_order_texts", .arr [])]))) := by
  refine ⟨fun used fs h => ?_, fun rV used fs htags hlots => ?_, fun used fs h => ?_,
    fun rV used fs h => ?_, fun rV used fs h => ?_⟩
  · rw [show processItem used (.obj fs) =
        (match pyIter (getD fs "high_order_text" (.arr [])) with
         | .error e => .error e
         | .ok hots => processHots (getD fs "reasonings" (.arr [])) used hots) from rfl]
    rw [getD_of_not_hasKey fs "high_order_text" (.arr []) h]
    rfl
  · rw [show processHot rV used (.obj fs) =
        (match pyJoin ", " (getD fs "tags" (.arr [])) with
         | .error e => .error e
         | .ok tagsStr =>
             match pyIter (getD fs "low_order_texts" (.arr [])) with
             | .error e => .error e
             | .ok lots =>
                 match processLots rV (getD fs "paragraph_ID" (.str "")) used lots with
                 | .error e => .error e
                 | .ok (lrows, used') =>
                     .ok (⟨.str "High-Order Text", getD fs "paragraph_ID" (.str ""),
                           getD fs "publication_ID" (.str ""), getD fs "text" (.str ""),
                           .str tagsStr, .str "N/A", .str ""⟩ :: lrows, used')) from rfl]
    rw [getD_of_not_hasKey fs "tags" (.arr []) htags,
        getD_of_not_hasKey fs "low_order_texts" (.arr []) hlots]
    rfl
  · rw [show processItem used (.obj fs) =
        (match pyIter (getD fs "high_order_text" (.arr [])) with
         | .error e => .error e
         | .ok hots => processHots (getD fs "reasonings" (.arr [])) used hots) from rfl]
    rw [show processItem used (.obj (fs ++ [("reasonings", .arr [])])) =
        (match pyIter (getD (fs ++ [("reasonings", .arr [])]) "high_order_text" (.arr [])) with
         | .error e => .error e
         | .ok hots =>
             processHots (getD (fs ++ [("reasonings", .arr [])]) "reasonings" (.arr []))
               used hots) from rfl]
    rw [getD_append_single fs "high_order_text" "reasonings" (.arr []) (.arr []) (by decide)]
    rw [getD_append_self fs "reasonings" (.arr []) (.arr []) h]
    rw [getD_of_not_hasKey fs "reasonings" (.arr []) h]
  · rw [show processHot rV used (.obj fs) =
        (match pyJoin ", " (getD fs "tags" (.arr [])) with
         | .error e => .error e
         | .ok tagsStr =>
             match pyIter (getD fs "low_order_texts" (.arr [])) with
             | .error e => .error e
             | .ok lots =>
                 match processLots rV (getD fs "paragraph_ID" (.str "")) used lots with
                 | .error e => .error e
                 | .ok (lrows, used') =>
                     .ok (⟨.str "High-Order Text", getD fs "paragraph_ID" (.str ""),
                           getD fs "publication_ID" (.str ""), getD fs "text" (.str ""),
                           .str tagsStr, .str "N/A", .str ""⟩ :: lrows, used')) from rfl]
    rw [show processHot rV used (.obj (fs ++ [("tags", .arr [])])) =
        (match pyJoin ", " (getD (fs ++ [("tags", .arr [])]) "tags" (.arr [])) with
         | .error e => .error e
         | .ok tagsStr =>
             match pyIter (getD (fs ++ [("tags", .arr [])]) "low_order_texts" (.arr [])) with
             | .error e => .error e
             | .ok lots =>
                 match processLots rV
                     (getD (fs ++ [("tags", .arr [])]) "paragraph_ID" (.str "")) used lots with
                 | .error e => .error e
                 | .ok (lrows, used') =>
                     .ok (⟨.str "High-Order Text",
                           getD (fs ++ [("tags", .arr [])]) "paragraph_ID" (.str ""),
                           getD (fs ++ [("tags", .arr [])]) "publication_ID" (.str ""),
                           getD (fs ++ [("tags", .arr [])]) "text" (.str ""),
                           .str tagsStr, .str "N/A", .str ""⟩ :: lrows, used')) from rfl]
    rw [getD_append_single fs "paragraph_ID" "tags" (.arr []) (.str "") (by decide)]
    rw [getD_append_single fs "low_order_texts" "tags" (.arr []) (.arr []) (by decide)]
    rw [getD_append_single fs "publication_ID" "tags" (.arr []) (.str "") (by decide)]
    rw [getD_append_single fs "text" "tags" (.arr []) (.str "") (by decide)]
    rw [getD_append_self fs "tags" (.arr []) (.arr []) h]
    rw [getD_of_not_hasKey fs "tags" (.arr []) h]
  · rw [show processHot rV used (.obj fs) =
        (match pyJoin ", " (getD fs "tags" (.arr [])) with
         | .error e => .error e
         | .ok tagsStr =>
             match pyIter (getD fs "low_order_texts" (.arr [])) with
             | .error e => .error e
             | .ok lots =>
                 match processLots rV (getD fs "paragraph_ID" (.str "")) used lots with
                 | .error e => .error e
                 | .ok (lrows, used') =>
                     .ok (⟨.str "High-Order Text", getD fs "paragraph_ID" (.str ""),
                           getD fs "publication_ID" (.str ""), getD fs "text" (.str ""),
                           .str tagsStr, .str "N/A", .str ""⟩ :: lrows, used')) from rfl]
    rw [show processHot rV used (.obj (fs ++ [("low_order_texts", .arr [])])) =
        (match pyJoin ", " (getD (fs ++ [("low_order_texts", .arr [])]) "tags" (.arr [])) with
         | .error e => .error e
         | .ok tagsStr =>
             match pyIter
                 (getD (fs ++ [("low_order_texts", .arr [])]) "low_order_texts" (.arr [])) with
             | .error e => .error e
             | .ok lots =>
                 match processLots rV
                     (getD (fs ++ [("low_order_texts", .arr [])]) "paragraph_ID" (.str ""))
                     used lots with
                 | .error e => .error e
                 | .ok (lrows, used') =>
                     .ok (⟨.str "High-Order Text",
                           getD (fs ++ [("low_order_texts", .arr [])]) "paragraph_ID" (.str ""),
                           getD (fs ++ [("low_order_texts", .arr [])]) "publication_ID"
                             (.str ""),
                           getD (fs ++ [("low_order_texts", .arr [])]) "text" (.str ""),
                           .str tagsStr, .str "N/A", .str ""⟩ :: lrows, used')) from rfl]
    rw [getD_append_single fs "paragraph_ID" "low_order_texts" (.arr []) (.str "") (by decide)]
    rw [getD_append_single fs "tags" "low_order_texts" (.arr []) (.arr []) (by decide)]
    rw [getD_append_single fs "publication_ID" "low_order_texts" (.arr []) (.str "") (by decide)]
    rw [getD_append_single fs "text" "low_order_texts" (.arr []) (.str "") (by decide)]
    rw [getD_append_self fs "low_order_texts" (.arr []) (.arr []) h]
    rw [getD_of_not_hasKey fs "low_order_texts" (.arr []) h]

/-- Witness for C9: the empty item produces no rows and does not
raise. -/
theorem C9_defaults_witness : processItem [] (.obj []) = .ok ([], []) :=
  C9_defaults.1 [] [] rfl

/-- Each low-order entry contributes exactly one row. -/
theorem processLots_length (rV hp : JValue) (used : List JValue) (ls : List JValue)
    (rows : List Row) (u2 : List JValue) (h : processLots rV hp used ls = .ok (rows, u2)) :
    rows.length = ls.length := by
  induction ls generalizing used rows u2 with
  | nil =>
      unfold processLots at h
      simp only [Except.ok.injEq, Prod.mk.injEq] at h
      rw [← h.1]
      rfl
  | cons l ls ih =>
      unfold processLots at h
      split at h
      · simp at h
      · rename_i row1 u1 h1
        split at h
        · simp at h
        · rename_i rows2 uu h2
          simp only [Except.ok.injEq, Prod.mk.injEq] at h
          obtain ⟨hr, hu⟩ := h
          rw [← hr, List.length_cons, List.length_cons, ih u1 rows2 uu h2]

/-- A successful `processHot` yields exactly one row for the high-order
entry plus one per low-order child. -/
theorem processHot_count (rV : JValue) (used : List JValue) (hot : JValue)
    (rows : List Row) (u2 : List JValue) (h : processHot rV used hot = .ok (rows, u2)) :
    entryCountHot hot = .ok rows.length := by
  cases hot with
  | obj fs =>
      unfold processHot at h
      split at h
      · rename_i v fs2 heq
        injection heq with hfs
        subst hfs
        dsimp only at h
        split at h
        · simp at h
        · rename_i hjoin
          split at h
          · simp at h
          · rename_i lots hiter
            split at h
            · simp at h
            · rename_i lrows uu hlots
              simp only [Except.ok.injEq, Prod.mk.injEq] at h
              obtain ⟨hr, hu⟩ := h
              show (match pyIter (getD fs "low_order_texts" (.arr [])) with
                    | .error e => Except.error e
                    | .ok lots => Except.ok (1 + lots.length)) = Except.ok rows.length
              rw [hiter, ← hr, List.length_cons,
                processLots_length rV _ used lots lrows uu hlots, Nat.add_comm]
      · rename_i x hne
        exact absurd rfl (hne fs)
  | null => simp [processHot] at h
  | bool b => simp [processHot] at h
  | num q => simp [processHot] at h
  | str s => simp [processHot] at h
  | arr xs => simp [processHot] at h

/-- A successful `processHots` yields the summed entry count. -/
theorem processHots_count (rV : JValue) (used : List JValue) (hs : List JValue)
    (rows : List Row) (u2 : List JValue) (h : processHots rV used hs = .ok (rows, u2)) :
    entryCountHots hs = .ok rows.length := by
  induction hs generalizing used rows u2 with
  | nil =>
      unfold processHots at h
      simp only [Except.ok.injEq, Prod.mk.injEq] at h
      rw [← h.1]
      rfl
  | cons hh hs ih =>
      unfold processHots at h
      split at h
      · simp at h
      · rename_i rows1 u1 h1
        split at h
        · simp at h
        · rename_i rows2 uu h2
          simp only [Except.ok.injEq, Prod.mk.injEq] at h
          obtain ⟨hr, hu⟩ := h
          unfold entryCountHots
          rw [processHot_count rV used hh rows1 u1 h1, ih u1 rows2 uu h2, ← hr,
            List.length_append]
  
/-- A successful `processItem` yields the item's entry count. -/
theorem processItem_count (used : List JValue) (item : JValue)
    (rows : List Row) (u2 : List JValue) (h : processItem used item = .ok (rows, u2)) :
    entryCountItem item = .ok rows.length := by
  cases item with
  | obj fs =>
      unfold processItem at h
      split at h
      · rename_i v fs2 heq
        injection heq with hfs
        subst hfs
        split at h
        · simp at h
        · rename_i hots hiter
          show (match pyIter (getD fs "high_order_text" (.arr [])) with
                | .error e => Except.error e
                | .ok hots => entryCountHots hots) = Except.ok rows.length
          rw [hiter]
          exact processHots_count _ used hots rows u2 h
      · rename_i x hne
        exact absurd rfl (hne fs)
  | null => simp [processItem] at h
  | bool b => simp [processItem] at h
  | num q => simp [processItem] at h
  | str s => simp [processItem] at h
  | arr xs => simp [processItem] at h

/-- A successful `processItemsList` yields the summed entry count. -/
theorem processItemsList_count (used : List JValue) (items : List JValue)
    (rows : List Row) (u2 : List JValue) (h : processItemsList used items = .ok (rows, u2)) :
    entryCountItemsList items = .ok rows.length := by
  induction items generalizing used rows u2 with
  | nil =>
      unfold processItemsList at h
      simp only [Except.ok.injEq, Prod.mk.injEq] at h
      rw [← h.1]
      rfl
  | cons i is ih =>
      unfold processItemsList at h
      split at h
      · simp at h
      · rename_i rows1 u1 h1
        split at h
        · simp at h
        · rename_i rows2 uu h2
          simp only [Except.ok.injEq, Prod.mk.injEq] at h
          obtain ⟨hr, hu⟩ := h
          unfold entryCountItemsList
          rw [processItem_count used i rows1 u1 h1, ih u1 rows2 uu h2, ← hr,
            List.length_append]

/-- A successful `processItems` yields the total entry count. -/
theorem processItems_count (used : List JValue) (itemsV : JValue)
    (rows : List Row) (u2 : List JValue) (h : processItems used itemsV = .ok (rows, u2)) :
    entryCountItems itemsV = .ok rows.length := by
  unfold processItems at h
  split at h
  · simp at h
  · rename_i items hiter
    unfold entryCountItems
    rw [hiter]
    exact processItemsList_count used items rows u2 h

/-- C1: whenever `process_json_data` returns a row list, its length is
the number of high-order entries plus the total number of their
low-order children (CONF-suppressed rows included, one each). -/
theorem C1_row_count :
    ∀ (j : JValue) (rows : List Row), process_json_data j = POutcome.rows rows →
      totalCountDoc j = .ok (some rows.length) := by
  intro j rows h
  unfold process_json_data at h
  unfold totalCountDoc
  split at h
  · simp at h
  · simp at h
  · rename_i itemsV hres
    split at h
    · simp at h
    · rename_i rows0 u hp
      simp only [POutcome.rows.injEq] at h
      subst h
      rw [processItems_count [] itemsV rows0 u hp]

/-- Witness for C1: the example document has one high-order entry with
two low-order children; the run returns three rows and the count is
three. -/
theorem C1_row_count_witness : totalCountDoc exampleDoc = .ok (some 3) :=
  C1_row_count exampleDoc [
    ⟨.str "High-Order Text", .str "P1", .str "PubA", .str "T1", .str "x", .str "N/A", .str ""⟩,
    ⟨.str "Low-Order Text", .str "L1", .str "PubA", .str "t1", .str "INCON-P1", .num (9/10),
     .str "because"⟩,
    ⟨.str "Low-Order Text", .str "L2", .str "PubA", .str "t2", .str "INCON-P1", .num (4/5),
     .null⟩] rfl

/-- The row a low-order entry produces, with Reasonings forgotten, is
the state-independent `orderLotRow`. -/
theorem processLot_order (rV hp : JValue) (used : List JValue) (lot : JValue)
    (row : Row) (u2 : List JValue) (h : processLot rV hp used lot = .ok (row, u2)) :
    orderLotRow hp lot = .ok (eraseReasonings row) := by
  cases lot with
  | obj fs =>
      unfold processLot at h
      split at h
      · rename_i v fs2 heq
        injection heq with hfs
        subst hfs
        dsimp only at h
        split at h
        · simp at h
        · rename_i hlr
          show (if truthy (getD fs "tag" (.str ("INCON-" ++ pyStr hp))) &&
                  pyStartsWith (pyStr (getD fs "tag" (.str ("INCON-" ++ pyStr hp)))) "CONF-"
                then Except.ok (⟨.null, .null, .null, .null,
                      getD fs "tag" (.str ("INCON-" ++ pyStr hp)), .null, .null⟩ : Row)
                else Except.ok (⟨.str "Low-Order Text", getD fs "paragraph_ID" (.str ""),
                      getD fs "publication_ID" (.str ""), getD fs "text" (.str ""),
                      getD fs "tag" (.str ("INCON-" ++ pyStr hp)),
                      getD fs "similarity_score" (.str ""), .null⟩ : Row)) =
              Except.ok (eraseReasonings row)
          split at h
          · rename_i hguard
            rw [if_pos hguard]
            simp only [Except.ok.injEq, Prod.mk.injEq] at h
            rw [← h.1]
            rfl
          · rename_i hguard
            rw [if_neg hguard]
            simp only [Except.ok.injEq, Prod.mk.injEq] at h
            rw [← h.1]
            rfl
      · rename_i x hne
        exact absurd rfl (hne fs)
  | null => simp [processLot] at h
  | bool b => simp [processLot] at h
  | num q => simp [processLot] at h
  | str s => simp [processLot] at h
  | arr xs => simp [processLot] at h

/-- Low-order rows, Reasonings forgotten, are the state-independent
traversal of the children. -/
theorem processLots_order (rV hp : JValue) (used : List JValue) (ls : List JValue)
    (rows : List Row) (u2 : List JValue) (h : processLots rV hp used ls = .ok (rows, u2)) :
    orderLotRows hp ls = .ok (rows.map eraseReasonings) := by
  induction ls generalizing used rows u2 with
  | nil =>
      unfold processLots at h
      simp only [Except.ok.injEq, Prod.mk.injEq] at h
      rw [← h.1]
      rfl
  | cons l ls ih =>
      unfold processLots at h
      split at h
      · simp at h
      · rename_i row1 u1 h1
        split at h
        · simp at h
        · rename_i rows2 uu h2
          simp only [Except.ok.injEq, Prod.mk.injEq] at h
          obtain ⟨hr, hu⟩ := h
          unfold orderLotRows
          rw [processLot_order rV hp used l row1 u1 h1, ih u1 rows2 uu h2, ← hr]
          rfl

/-- The row block of a high-order entry, Reasonings forgotten, is the
state-independent `orderHotRows`. -/
theorem processHot_order (rV : JValue) (used : List JValue) (hot : JValue)
    (rows : List Row) (u2 : List JValue) (h : processHot rV used hot = .ok (rows, u2)) :
    orderHotRows hot = .ok (rows.map eraseReasonings) := by
  cases hot with
  | obj fs =>
      unfold processHot at h
      split at h
      · rename_i v fs2 heq
        injection heq with hfs
        subst hfs
        dsimp only at h
        split at h
        · simp at h
        · rename_i x3 tagsStr hjoin
          split at h
          · simp at h
          · rename_i lots hiter
            split at h
            · simp at h
            · rename_i lrows uu hlots
              simp only [Except.ok.injEq, Prod.mk.injEq] at h
              obtain ⟨hr, hu⟩ := h
              show (match pyJoin ", " (getD fs "tags" (.arr [])) with
                    | .error e => Except.error e
                    | .ok tagsStr =>
                        match pyIter (getD fs "low_order_texts" (.arr [])) with
                        | .error e => Except.error e
                        | .ok lots =>
                            match orderLotRows (getD fs "paragraph_ID" (.str "")) lots with
                            | .error e => Except.error e
                            | .ok lrows =>
                                Except.ok ((⟨.str "High-Order Text",
                                  getD fs "paragraph_ID" (.str ""),
                                  getD fs "publication_ID" (.str ""),
                                  getD fs "text" (.str ""),
                                  .str tagsStr, .str "N/A", .null⟩ : Row) :: lrows)) =
                  Except.ok (rows.map eraseReasonings)
              rw [hjoin, hiter]
              show (match orderLotRows (getD fs "paragraph_ID" (.str "")) lots with
                    | .error e => Except.error e
                    | .ok lrows =>
                        Except.ok ((⟨.str "High-Order Text",
                          getD fs "paragraph_ID" (.str ""),
                          getD fs "publication_ID" (.str ""),
                          getD fs "text" (.str ""),
                          .str tagsStr, .str "N/A", .null⟩ : Row) :: lrows)) =
                  Except.ok (rows.map eraseReasonings)
              rw [processLots_order rV _ used lots lrows uu hlots, ← hr]
              rfl
      · rename_i x hne
        exact absurd rfl (hne fs)
  | null => simp [processHot] at h
  | bool b => simp [processHot] at h
  | num q => simp [processHot] at h
  | str s => simp [processHot] at h
  | arr xs => simp [processHot] at h

/-- Concatenated high-order blocks, Reasonings forgotten. -/
theorem processHots_order (rV : JValue) (used : List JValue) (hs : List JValue)
    (rows : List Row) (u2 : List JValue) (h : processHots rV used hs = .ok (rows, u2)) :
    orderHotsRows hs = .ok (rows.map eraseReasonings) := by
  induction hs generalizing used rows u2 with
  | nil =>
      unfold processHots at h
      simp only [Except.ok.injEq, Prod.mk.injEq] at h
      rw [← h.1]
      rfl
  | cons hh hs ih =>
      unfold processHots at h
      split at h
      · simp at h
      · rename_i rows1 u1 h1
        split at h
        · simp at h
        · rename_i rows2 uu h2
          simp only [Except.ok.injEq, Prod.mk.injEq] at h
          obtain ⟨hr, hu⟩ := h
          unfold orderHotsRows
          rw [processHot_order rV used hh rows1 u1 h1, ih u1 rows2 uu h2, ← hr,
            List.map_append]

/-- An item's rows, Reasonings forgotten. -/
theorem processItem_order (used : List JValue) (item : JValue)
    (rows : List Row) (u2 : List JValue) (h : processItem used item = .ok (rows, u2)) :
    orderItemRows item = .ok (rows.map eraseReasonings) := by
  cases item with
  | obj fs =>
      unfold processItem at h
      split at h
      · rename_i v fs2 heq
        injection heq with hfs
        subst hfs
        split at h
        · simp at h
        · rename_i hots hiter
          show (match pyIter (getD fs "high_order_text" (.arr [])) with
                | .error e => Except.error e
                | .ok hots => orderHotsRows hots) = Except.ok (rows.map eraseReasonings)
          rw [hiter]
          exact processHots_order _ used hots rows u2 h
      · rename_i x hne
        exact absurd rfl (hne fs)
  | null => simp [processItem] at h
  | bool b => simp [processItem] at h
  | num q => simp [processItem] at h
  | str s => simp [processItem] at h
  | arr xs => simp [processItem] at h

/-- All items' rows, Reasonings forgotten. -/
theorem processItemsList_order (used : List JValue) (items : List JValue)
    (rows : List Row) (u2 : List JValue) (h : processItemsList used items = .ok (rows, u2)) :
    orderItemsRows items = .ok (rows.map eraseReasonings) := by
  induction items generalizing used rows u2 with
  | nil =>
      unfold processItemsList at h
      simp only [Except.ok.injEq, Prod.mk.injEq] at h
      rw [← h.1]
      rfl
  | cons i is ih =>
      unfold processItemsList at h
      split at h
      · simp at h
      · rename_i rows1 u1 h1
        split at h
        · simp at h
        · rename_i rows2 uu h2
          simp only [Except.ok.injEq, Prod.mk.injEq] at h
          obtain ⟨hr, hu⟩ := h
          unfold orderItemsRows
          rw [processItem_order used i rows1 u1 h1, ih u1 rows2 uu h2, ← hr,
            List.map_append]

/-- The whole run's rows, Reasonings forgotten. -/
theorem processItems_order (used : List JValue) (itemsV : JValue)
    (rows : List Row) (u2 : List JValue) (h : processItems used itemsV = .ok (rows, u2)) :
    orderRows itemsV = .ok (rows.map eraseReasonings) := by
  unfold processItems at h
  split at h
  · simp at h
  · rename_i items hiter
    unfold orderRows
    rw [hiter]
    exact processItemsList_order used items rows u2 h

/-- A low-order row's Text Type is `None` (CONF branch) or
`"Low-Order Text"`, never `"High-Order Text"`. -/
theorem processLot_textType (rV hp : JValue) (used : List JValue) (lot : JValue)
    (row : Row) (u2 : List JValue) (h : processLot rV hp used lot = .ok (row, u2)) :
    row.textType = JValue.null ∨ row.textType = JValue.str "Low-Order Text" := by
  cases lot with
  | obj fs =>
      unfold processLot at h
      split at h
      · rename_i v fs2 heq
        injection heq with hfs
        subst hfs
        dsimp only at h
        split at h
        · simp at h
        · rename_i hlr
          split at h
          · simp only [Except.ok.injEq, Prod.mk.injEq] at h
            rw [← h.1]
            exact Or.inl rfl
          · simp only [Except.ok.injEq, Prod.mk.injEq] at h
            rw [← h.1]
            exact Or.inr rfl
      · rename_i x hne
        exact absurd rfl (hne fs)
  | null => simp [processLot] at h
  | bool b => simp [processLot] at h
  | num q => simp [processLot] at h
  | str s => simp [processLot] at h
  | arr xs => simp [processLot] at h

/-- Among low-order rows there is no row typed `"High-Order Text"`. -/
theorem processLots_high (rV hp : JValue) (used : List JValue) (ls : List JValue)
    (rows : List Row) (u2 : List JValue) (h : processLots rV hp used ls = .ok (rows, u2)) :
    ∀ r ∈ rows, r.textType = JValue.str "High-Order Text" → r.reasonings = JValue.str "" := by
  induction ls generalizing used rows u2 with
  | nil =>
      unfold processLots at h
      simp only [Except.ok.injEq, Prod.mk.injEq] at h
      rw [← h.1]
      intro r hr
      simp at hr
  | cons l ls ih =>
      unfold processLots at h
      split at h
      · simp at h
      · rename_i row1 u1 h1
        split at h
        · simp at h
        · rename_i rows2 uu h2
          simp only [Except.ok.injEq, Prod.mk.injEq] at h
          obtain ⟨hr, hu⟩ := h
          rw [← hr]
          intro r hmem ht
          rcases List.mem_cons.mp hmem with hcase | hcase
          · subst hcase
            rcases processLot_textType rV hp used l r u1 h1 with hh | hh <;>
              rw [hh] at ht <;> simp at ht
          · exact ih u1 rows2 uu h2 r hcase ht

/-- In a high-order block, every row typed `"High-Order Text"` carries
the empty-string Reasonings. -/
theorem processHot_high (rV : JValue) (used : List JValue) (hot : JValue)
    (rows : List Row) (u2 : List JValue) (h : processHot rV used hot = .ok (rows, u2)) :
    ∀ r ∈ rows, r.textType = JValue.str "High-Order Text" → r.reasonings = JValue.str "" := by
  cases hot with
  | obj fs =>
      unfold processHot at h
      split at h
      · rename_i v fs2 heq
        injection heq with hfs
        subst hfs
        dsimp only at h
        split at h
        · simp at h
        · rename_i x3 tagsStr hjoin
          split at h
          · simp at h
          · rename_i lots hiter
            split at h
            · simp at h
            · rename_i lrows uu hlots
              simp only [Except.ok.injEq, Prod.mk.injEq] at h
              obtain ⟨hr, hu⟩ := h
              rw [← hr]
              intro r hmem ht
              rcases List.mem_cons.mp hmem with hcase | hcase
              · subst hcase
                rfl
              · exact processLots_high rV _ used lots lrows uu hlots r hcase ht
      · rename_i x hne
        exact absurd rfl (hne fs)
  | null => simp [processHot] at h
  | bool b => simp [processHot] at h
  | num q => simp [processHot] at h
  | str s => simp [processHot] at h
  | arr xs => simp [processHot] at h

/-- Across high-order blocks. -/
theorem processHots_high (rV : JValue) (used : List JValue) (hs : List JValue)
    (rows : List Row) (u2 : List JValue) (h : processHots rV used hs = .ok (rows, u2)) :
    ∀ r ∈ rows, r.textType = JValue.str "High-Order Text" → r.reasonings = JValue.str "" := by
  induction hs generalizing used rows u2 with
  | nil =>
      unfold processHots at h
      simp only [Except.ok.injEq, Prod.mk.injEq] at h
      rw [← h.1]
      intro r hr
      simp at hr
  | cons hh hs ih =>
      unfold processHots at h
      split at h
      · simp at h
      · rename_i rows1 u1 h1
        split at h
        · simp at h
        · rename_i rows2 uu h2
          simp only [Except.ok.injEq, Prod.mk.injEq] at h
          obtain ⟨hr, hu⟩ := h
          rw [← hr]
          intro r hmem ht
          rcases List.mem_append.mp hmem with hcase | hcase
          · exact processHot_high rV used hh rows1 u1 h1 r hcase ht
          · exact ih u1 rows2 uu h2 r hcase ht

/-- Per item. -/
theorem processItem_high (used : List JValue) (item : JValue)
    (rows : List Row) (u2 : List JValue) (h : processItem used item = .ok (rows, u2)) :
    ∀ r ∈ rows, r.textType = JValue.str "High-Order Text" → r.reasonings = JValue.str "" := by
  cases item with
  | obj fs =>
      unfold processItem at h
      split at h
      · rename_i v fs2 heq
        injection heq with hfs
        subst hfs
        split at h
        · simp at h
        · rename_i hots hiter
          exact processHots_high _ used hots rows u2 h
      · rename_i x hne
        exact absurd rfl (hne fs)
  | null => simp [processItem] at h
  | bool b => simp [processItem] at h
  | num q => simp [processItem] at h
  | str s => simp [processItem] at h
  | arr xs => simp [processItem] at h

/-- Across items. -/
theorem processItemsList_high (used : List JValue) (items : List JValue)
    (rows : List Row) (u2 : List JValue) (h : processItemsList used items = .ok (rows, u2)) :
    ∀ r ∈ rows, r.textType = JValue.str "High-Order Text" → r.reasonings = JValue.str "" := by
  induction items generalizing used rows u2 with
  | nil =>
      unfold processItemsList at h
      simp only [Except.ok.injEq, Prod.mk.injEq] at h
      rw [← h.1]
      intro r hr
      simp at hr
  | cons i is ih =>
      unfold processItemsList at h
      split at h
      · simp at h
      · rename_i rows1 u1 h1
        split at h
        · simp at h
        · rename_i rows2 uu h2
          simp only [Except.ok.injEq, Prod.mk.injEq] at h
          obtain ⟨hr, hu⟩ := h
          rw [← hr]
          intro r hmem ht
          rcases List.mem_append.mp hmem with hcase | hcase
          · exact processItem_high used i rows1 u1 h1 r hcase ht
          · exact ih u1 rows2 uu h2 r hcase ht

/-- For the whole run. -/
theorem processItems_high (used : List JValue) (itemsV : JValue)
    (rows : List Row) (u2 : List JValue) (h : processItems used itemsV = .ok (rows, u2)) :
    ∀ r ∈ rows, r.textType = JValue.str "High-Order Text" → r.reasonings = JValue.str "" := by
  unfold processItems at h
  split at h
  · simp at h
  · rename_i items hiter
    exact processItemsList_high used items rows u2 h

/-- C6: the produced rows, with the only state-dependent field
(Reasonings) forgotten, coincide with the pure traversal `orderRows`:
exactly one high-order row (Text Type `"High-Order Text"`, tags joined
with `", "`, Similarity `"N/A"`) per high-order entry, immediately
followed by one row per low-order child, in source order across items,
entries and children — no reordering, deduplication or sorting; and
every row typed `"High-Order Text"` carries the empty-string
Reasonings. -/
theorem C6_row_order :
    (∀ (used : List JValue) (itemsV : JValue) (rows : List Row) (u2 : List JValue),
      processItems used itemsV = .ok (rows, u2) →
      orderRows itemsV = .ok (rows.map eraseReasonings)) ∧
    (∀ (used : List JValue) (itemsV : JValue) (rows : List Row) (u2 : List JValue),
      processItems used itemsV = .ok (rows, u2) →
      ∀ r ∈ rows, r.textType = JValue.str "High-Order Text" →
        r.reasonings = JValue.str "") :=
  ⟨fun used itemsV rows u2 h => processItems_order used itemsV rows u2 h,
   fun used itemsV rows u2 h => processItems_high used itemsV rows u2 h⟩

/-- Witness for C6: the pure traversal of the example document's items
is exactly the erased version of the three produced rows. -/
theorem C6_row_order_witness :
    orderRows (.arr [exampleDoc]) = .ok [
      ⟨.str "High-Order Text", .str "P1", .str "PubA", .str "T1", .str "x", .str "N/A",
       .null⟩,
      ⟨.str "Low-Order Text", .str "L1", .str "PubA", .str "t1", .str "INCON-P1",
       .num (9/10), .null⟩,
      ⟨.str "Low-Order Text", .str "L2", .str "PubA", .str "t2", .str "INCON-P1",
       .num (4/5), .null⟩] :=
  C6_row_order.1 [] (.arr [exampleDoc]) [
    ⟨.str "High-Order Text", .str "P1", .str "PubA", .str "T1", .str "x", .str "N/A",
     .str ""⟩,
    ⟨.str "Low-Order Text", .str "L1", .str "PubA", .str "t1", .str "INCON-P1",
     .num (9/10), .str "because"⟩,
    ⟨.str "Low-Order Text", .str "L2", .str "PubA", .str "t2", .str "INCON-P1",
     .num (4/5), .null⟩] [.str "PubA"] rfl
